import Mathlib

/-!
Verification of the Reactor async-runtime core (enzoblain/Reactor).

This file gives a shallow embedding, in Lean 4, of the parts of the runtime
that the specification's claims talk about:

* the reactor state and its event-handling loop (`src/reactor/core.rs`),
* the read/write I/O futures (`src/reactor/future.rs`),
* the sleep future (`src/reactor/sleep.rs`),
* the timeout combinator (`src/time/timeout.rs`),
* `write_all` (`src/net/tcp_stream.rs`),
* tasks and join handles (`src/task.rs`),
* the `block_on` loop (`src/runtime/core.rs`),
* the thread-local context (`src/runtime/context.rs`).

Rust machine integers are modelled as `Int`/`Nat` (with explicit wrapping where
the source wraps), `HashMap` as an association list whose operations have
hash-map semantics, wakers as opaque identities, and kernel syscalls as oracle
parameters: the kernel's answers are inputs to the embedded functions, and
kernel-side effects (kevent arming, closing descriptors) have no representation
in the reactor state, exactly as they have none in the Rust `Reactor` struct.
-/

/-- Rust's `std::task::Poll`. -/
inductive RPoll (α : Type) where
  | ready (v : α)
  | pending
deriving DecidableEq, Repr

/-- Decidable equality for `Except`, used to evaluate concrete scenarios. -/
instance {ε α : Type} [DecidableEq ε] [DecidableEq α] : DecidableEq (Except ε α) := fun a b =>
  match a, b with
  | .ok x, .ok y =>
    if h : x = y then isTrue (by subst h; rfl) else isFalse (fun hh => h (by injection hh))
  | .error x, .error y =>
    if h : x = y then isTrue (by subst h; rfl) else isFalse (fun hh => h (by injection hh))
  | .ok _, .error _ => isFalse (fun hh => nomatch hh)
  | .error _, .ok _ => isFalse (fun hh => nomatch hh)

/-- A waker, identified opaquely; `clone` preserves the identity. -/
abbrev Waker := Nat

/-- macOS `libc::EAGAIN`. -/
def EAGAIN : Int := 35

/-- macOS `libc::EWOULDBLOCK` (same value as `EAGAIN` on macOS). -/
def EWOULDBLOCK : Int := 35

/-- macOS `libc::EVFILT_READ`. -/
def EVFILT_READ : Int := -1

/-- macOS `libc::EVFILT_WRITE`. -/
def EVFILT_WRITE : Int := -2

/-- macOS `libc::EVFILT_TIMER`. -/
def EVFILT_TIMER : Int := -7

/-- The `usize → i32` cast (`event.get_ident() as i32`): truncate to 32 bits,
then reinterpret as two's complement. -/
def usizeToI32 (n : Nat) : Int :=
  let m : Nat := n % 2 ^ 32
  if m < 2 ^ 31 then (m : Int) else (m : Int) - 2 ^ 32

/-- Association-list model of `std::collections::HashMap`: removal drops the
key entirely. -/
def mapRemove {κ ν : Type} [DecidableEq κ] (k : κ) (m : List (κ × ν)) : List (κ × ν) :=
  m.filter (fun p => decide (p.1 ≠ k))

/-- Association-list model of `HashMap::insert`: the key maps to the new value
afterwards (any previous binding is replaced). -/
def mapInsert {κ ν : Type} [DecidableEq κ] (k : κ) (v : ν) (m : List (κ × ν)) : List (κ × ν) :=
  (k, v) :: mapRemove k m

/-- Association-list model of `HashMap::get`. -/
def mapLookup {κ ν : Type} [DecidableEq κ] (k : κ) (m : List (κ × ν)) : Option ν :=
  (m.find? (fun p => decide (p.1 = k))).map Prod.snd

theorem mapLookup_insert_self {κ ν : Type} [DecidableEq κ] (k : κ) (v : ν) (m : List (κ × ν)) :
    mapLookup k (mapInsert k v m) = some v := by
  simp [mapLookup, mapInsert, List.find?]

theorem mapLookup_remove_self {κ ν : Type} [DecidableEq κ] (k : κ) (m : List (κ × ν)) :
    mapLookup k (mapRemove k m) = none := by
  induction m with
  | nil => rfl
  | cons p rest ih =>
    by_cases h : p.1 = k
    · simpa [mapLookup, mapRemove, h] using ih
    · simpa [mapLookup, mapRemove, List.find?, h] using ih

/-- `ConnexionState` from `src/reactor/io.rs`. -/
inductive ConnexionState where
  | reading
  | writing
deriving DecidableEq, Repr

/-- `Connexion` from `src/reactor/io.rs`. -/
structure Connexion where
  state : ConnexionState
  out : List UInt8
deriving DecidableEq, Repr

/-- `Connexion::new`. -/
def Connexion.new : Connexion :=
  { state := .reading, out := [] }

/-- `Entry` from `src/reactor/core.rs`. -/
inductive Entry where
  | listener
  | client (c : Connexion)
  | waiting (w : Waker)
deriving DecidableEq, Repr

/-- A harvested kernel event (`Event` scratch slots used by `handle_events`):
`ident` is the kevent identifier (a descriptor or a timer id, as `usize`),
`filter` the kevent filter. -/
structure KEvent where
  ident : Nat
  filter : Int
deriving DecidableEq, Repr

/-- The reactor state (`Reactor` from `src/reactor/core.rs`): the `queue`
kqueue descriptor and the `events`/`n_events` scratch buffer are kernel-facing;
the harvested events are instead passed to `handle_events` as a list. -/
structure Reactor where
  registry : List (Int × Entry)
  timers : List (Nat × Waker)
  next_timer_id : Nat
  wakers : List Waker
deriving DecidableEq, Repr

/-- `Reactor::new`. -/
def Reactor.new : Reactor :=
  { registry := [], timers := [], next_timer_id := 1, wakers := [] }

/-- `Reactor::register_read`: arms the kernel for read readiness (kernel-side,
not part of the state) and records the waker in the registry, replacing any
previous entry for the descriptor. -/
def Reactor.register_read (r : Reactor) (file_descriptor : Int) (waker : Waker) : Reactor :=
  { r with registry := mapInsert file_descriptor (.waiting waker) r.registry }

/-- `Reactor::register_write`: identical to `register_read` except for the
kernel filter; it records the waker in the same fd-keyed registry. -/
def Reactor.register_write (r : Reactor) (file_descriptor : Int) (waker : Waker) : Reactor :=
  { r with registry := mapInsert file_descriptor (.waiting waker) r.registry }

/-- `usize::MAX + 1`, for the source's `wrapping_add`. -/
def USIZE_MOD : Nat := 2 ^ 64

/-- `Reactor::register_timer`: allocates the next timer id, advances the
counter with `wrapping_add(1).max(1)`, arms a one-shot kernel timer (with the
duration clamped to `0..=isize::MAX` milliseconds, kernel-side) and records the
waker under the fresh id. Returns the updated reactor and the id used. -/
def Reactor.register_timer (r : Reactor) (duration_ms : Nat) (waker : Waker) : Reactor × Nat :=
  let id := r.next_timer_id
  ({ r with
      next_timer_id := max ((id + 1) % USIZE_MOD) 1
      timers := mapInsert id waker r.timers }, id)

/-- `Reactor::wake_ready`: drains the pending-wakers buffer, invoking each
waker; returns the new state and the list of wakers invoked, in order. -/
def Reactor.wake_ready (r : Reactor) : Reactor × List Waker :=
  ({ r with wakers := [] }, r.wakers)

/-- Outcome of the `libc::read` call made by `Reactor::handle_read`:
`closed` is a 0 return, `failed e` a negative return with `errno = e`, and
`bytes data` a positive return delivering `data` (so `data` is nonempty). -/
inductive ReadOutcome where
  | closed
  | failed (errno : Int)
  | bytes (data : List UInt8)
deriving DecidableEq, Repr

/-- Kernel syscall oracle for the echo-server paths of `handle_events`:
the answers the kernel would give to `read`, `write` and `accept`.
`writeConn` returns the byte count written (at most the buffer length) or an
errno; `acceptConn` returns a fresh client descriptor or an errno. -/
structure Sys where
  readConn : Int → ReadOutcome
  writeConn : Int → List UInt8 → Except Int Nat
  acceptConn : Int → Except Int Int

/-- `OUT_MAX_BYTES` from `src/reactor/core.rs`. -/
def OUT_MAX_BYTES : Nat := 8 * 1024 * 1024

/-- `Reactor::handle_read`: reads from the descriptor and returns whether the
connection should be closed, together with the updated connexion. -/
def Reactor.handle_read (sys : Sys) (file_descriptor : Int) (connexion : Connexion) :
    Bool × Connexion :=
  match sys.readConn file_descriptor with
  | .closed => (true, connexion)
  | .failed err =>
    if err = EAGAIN ∨ err = EWOULDBLOCK then (false, connexion) else (true, connexion)
  | .bytes data =>
    if connexion.out.length + data.length > OUT_MAX_BYTES then (true, connexion)
    else (false, { state := .writing, out := connexion.out ++ data })

/-- `Reactor::handle_write`: writes the connexion's buffered output and returns
whether the connection should be closed, together with the updated connexion
(`unregister_write` on drain is kernel-side). -/
def Reactor.handle_write (sys : Sys) (file_descriptor : Int) (connexion : Connexion) :
    Bool × Connexion :=
  match sys.writeConn file_descriptor connexion.out with
  | .error err =>
    if err = EAGAIN ∨ err = EWOULDBLOCK then (false, connexion) else (true, connexion)
  | .ok n =>
    let out := connexion.out.drop n
    if out.isEmpty then (false, { state := .reading, out := out })
    else (false, { connexion with out := out })

/-- `accept_client` from `src/reactor/socket.rs`: on success the new client
descriptor is set non-blocking, armed for reads (kernel-side) and inserted in
the registry as a fresh `Client`; every error path returns without change. -/
def accept_client (sys : Sys) (registry : List (Int × Entry)) (listener_file_descriptor : Int) :
    List (Int × Entry) :=
  match sys.acceptConn listener_file_descriptor with
  | .error _ => registry
  | .ok client_file_descriptor =>
    mapInsert client_file_descriptor (.client Connexion.new) registry

/-- Whether a registry entry is the listener (the guard of the first
`EVFILT_READ` match arm of `handle_events`). -/
def isListenerEntry : Option Entry → Bool
  | some .listener => true
  | _ => false

/-- One step of the `handle_events` loop of `src/reactor/core.rs` (current
tree): classify one harvested event and update the reactor. The kernel-side
`cleanup` (unregister both filters and `close`) leaves the model state as is;
the registry entry was already removed in those paths. -/
def Reactor.handle_one_event (sys : Sys) (r : Reactor) (event : KEvent) : Reactor :=
  let file_descriptor : Int := usizeToI32 event.ident
  if event.filter = EVFILT_READ ∧ isListenerEntry (mapLookup file_descriptor r.registry) then
    { r with registry := accept_client sys r.registry file_descriptor }
  else if event.filter = EVFILT_READ then
    match mapLookup file_descriptor r.registry with
    | none => r
    | some entry =>
      let r1 := { r with registry := mapRemove file_descriptor r.registry }
      match entry with
      | .waiting waker => { r1 with wakers := r1.wakers ++ [waker] }
      | .client connexion =>
        match connexion.state with
        | .reading =>
          let (close, connexion1) := Reactor.handle_read sys file_descriptor connexion
          if close then r1
          else { r1 with registry := mapInsert file_descriptor (.client connexion1) r1.registry }
        | _ => { r1 with registry := mapInsert file_descriptor (.client connexion) r1.registry }
      | .listener => r1
  else if event.filter = EVFILT_WRITE then
    match mapLookup file_descriptor r.registry with
    | none => r
    | some entry =>
      let r1 := { r with registry := mapRemove file_descriptor r.registry }
      match entry with
      | .waiting waker => { r1 with wakers := r1.wakers ++ [waker] }
      | .client connexion =>
        match connexion.state with
        | .writing =>
          let (close, connexion1) := Reactor.handle_write sys file_descriptor connexion
          if close then r1
          else { r1 with registry := mapInsert file_descriptor (.client connexion1) r1.registry }
        | _ => { r1 with registry := mapInsert file_descriptor (.client connexion) r1.registry }
      | .listener => r1
  else if event.filter = EVFILT_TIMER then
    let timer_id := event.ident
    match mapLookup timer_id r.timers with
    | some waker =>
      { r with timers := mapRemove timer_id r.timers, wakers := r.wakers ++ [waker] }
    | none => r
  else r

/-- `Reactor::handle_events`: fold `handle_one_event` over the harvested batch
(`self.events[..n_events]`, supplied here as a list). -/
def Reactor.handle_events (sys : Sys) (r : Reactor) (events : List KEvent) : Reactor :=
  events.foldl (Reactor.handle_one_event sys) r

/-- Number of bindings an association list holds for a key (a hash map holds
at most one). -/
def keyCount {κ ν : Type} [DecidableEq κ] (k : κ) (m : List (κ × ν)) : Nat :=
  (m.filter (fun p => decide (p.1 = k))).length

theorem keyCount_mapRemove_self {κ ν : Type} [DecidableEq κ] (k : κ) (m : List (κ × ν)) :
    keyCount k (mapRemove k m) = 0 := by
  induction m with
  | nil => rfl
  | cons p rest ih =>
    by_cases h : p.1 = k <;> simp [keyCount, mapRemove, h] at ih ⊢ <;> simpa [keyCount, mapRemove] using ih

theorem keyCount_mapRemove_le {κ ν : Type} [DecidableEq κ] (k k2 : κ) (m : List (κ × ν)) :
    keyCount k (mapRemove k2 m) ≤ keyCount k m := by
  unfold keyCount mapRemove
  exact List.Sublist.length_le (List.Sublist.filter _ (List.filter_sublist m))

theorem keyCount_mapInsert_self {κ ν : Type} [DecidableEq κ] (k : κ) (v : ν) (m : List (κ × ν)) :
    keyCount k (mapInsert k v m) = 1 := by
  have h := keyCount_mapRemove_self k m
  simp [keyCount, mapInsert] at h ⊢
  simpa [keyCount] using h

theorem keyCount_mapInsert_le {κ ν : Type} [DecidableEq κ] (k k2 : κ) (v : ν)
    (m : List (κ × ν)) (h : keyCount k m ≤ 1) : keyCount k (mapInsert k2 v m) ≤ 1 := by
  by_cases hk : k = k2
  · subst hk
    simp [keyCount_mapInsert_self]
  · have hk2 : ¬ (k2 = k) := fun hkk => hk hkk.symm
    have hle := keyCount_mapRemove_le k k2 m
    have heq : keyCount k (mapInsert k2 v m) = keyCount k (mapRemove k2 m) := by
      simp [keyCount, mapInsert, List.filter_cons, hk2]
    omega

theorem handle_events_singleton (sys : Sys) (r : Reactor) (e : KEvent) :
    r.handle_events sys [e] = r.handle_one_event sys e :=
  rfl

theorem handle_one_event_read_waiting (sys : Sys) (r : Reactor) (n : Nat) (w : Waker)
    (h : mapLookup (usizeToI32 n) r.registry = some (Entry.waiting w)) :
    r.handle_one_event sys ⟨n, EVFILT_READ⟩ =
      { r with registry := mapRemove (usizeToI32 n) r.registry
             , wakers := r.wakers ++ [w] } := by
  unfold Reactor.handle_one_event
  simp only [h, isListenerEntry]
  simp

theorem handle_one_event_read_none (sys : Sys) (r : Reactor) (n : Nat)
    (h : mapLookup (usizeToI32 n) r.registry = none) :
    r.handle_one_event sys ⟨n, EVFILT_READ⟩ = r := by
  unfold Reactor.handle_one_event
  simp only [h, isListenerEntry]
  simp

/-- C2: after `register_read(fd, w)` the harvest of one read-readiness event
for `fd` moves `w` to the pending-wakers buffer exactly once (so the next
`wake_ready` fires it exactly once), removes the registration from the
registry, and a second read-readiness event for `fd` before any
re-registration changes nothing (wakes nothing). -/
theorem register_read_then_read_event_one_shot
    (r : Reactor) (sys : Sys) (n : Nat) (w : Waker) :
    (((r.register_read (usizeToI32 n) w).handle_events sys [⟨n, EVFILT_READ⟩]).wakers
        = (r.register_read (usizeToI32 n) w).wakers ++ [w]) ∧
    (mapLookup (usizeToI32 n)
        ((r.register_read (usizeToI32 n) w).handle_events sys [⟨n, EVFILT_READ⟩]).registry
        = none) ∧
    (((r.register_read (usizeToI32 n) w).handle_events sys [⟨n, EVFILT_READ⟩]).handle_events
        sys [⟨n, EVFILT_READ⟩]
        = (r.register_read (usizeToI32 n) w).handle_events sys [⟨n, EVFILT_READ⟩]) ∧
    ((((r.register_read (usizeToI32 n) w).handle_events sys [⟨n, EVFILT_READ⟩]).wake_ready).2
        = (r.register_read (usizeToI32 n) w).wakers ++ [w]) := by
  have hlook : mapLookup (usizeToI32 n) (r.register_read (usizeToI32 n) w).registry
      = some (Entry.waiting w) := mapLookup_insert_self _ _ _
  have h1 : (r.register_read (usizeToI32 n) w).handle_events sys [⟨n, EVFILT_READ⟩]
      = { r.register_read (usizeToI32 n) w with
            registry := mapRemove (usizeToI32 n) (r.register_read (usizeToI32 n) w).registry
          , wakers := (r.register_read (usizeToI32 n) w).wakers ++ [w] } := by
    rw [handle_events_singleton, handle_one_event_read_waiting sys _ n w hlook]
  have h2 : mapLookup (usizeToI32 n)
      ((r.register_read (usizeToI32 n) w).handle_events sys [⟨n, EVFILT_READ⟩]).registry
      = none := by
    rw [h1]
    exact mapLookup_remove_self _ _
  refine ⟨by rw [h1], h2, ?_, ?_⟩
  · rw [handle_events_singleton, handle_one_event_read_none sys _ n h2]
  · rw [h1]
    rfl

/-- C3 counterexample: the registry is keyed by descriptor only, with no
direction, so `register_write(3, w2)` after `register_read(3, w1)` replaces
the read registration: the read-waker `w1` is no longer registered for 3. -/
theorem register_write_replaces_read_waker_cex :
    (mapLookup 3 ((Reactor.new.register_read 3 1).register_write 3 2).registry
      = some (Entry.waiting 2)) ∧
    (mapLookup 3 ((Reactor.new.register_read 3 1).register_write 3 2).registry
      ≠ some (Entry.waiting 1)) := by
  decide

/-- C3 amended: the reactor holds at most one waker per file descriptor in
total, not one per direction: the directions share the fd-keyed registry, so
after `register_read(fd, w1)` followed by `register_write(fd, w2)` the
descriptor maps to the write-waker `w2` alone (the read-waker was replaced),
and every registration keeps the registry at no more than one binding per
descriptor. -/
theorem registry_single_waker_per_fd
    (r : Reactor) (fd : Int) (w1 w2 : Waker) (k : Int)
    (hr : keyCount k r.registry ≤ 1) :
    (mapLookup fd ((r.register_read fd w1).register_write fd w2).registry
      = some (Entry.waiting w2)) ∧
    keyCount k ((r.register_read fd w1).register_write fd w2).registry ≤ 1 := by
  constructor
  · simp [Reactor.register_read, Reactor.register_write, mapLookup_insert_self]
  · simp only [Reactor.register_read, Reactor.register_write]
    exact keyCount_mapInsert_le _ _ _ _ (keyCount_mapInsert_le _ _ _ _ hr)

/-- Witness for `registry_single_waker_per_fd` at a concrete reactor. -/
theorem registry_single_waker_per_fd_witness :
    (mapLookup 3 ((Reactor.new.register_read 3 1).register_write 3 2).registry
      = some (Entry.waiting 2)) ∧
    keyCount 3 ((Reactor.new.register_read 3 1).register_write 3 2).registry ≤ 1 :=
  registry_single_waker_per_fd Reactor.new 3 1 2 3 (by decide)

/-- Outcome of one non-blocking `read`/`write` syscall made by an I/O future:
`ok n` is a return value `n ≥ 0`, `err e` a negative return with `errno = e`. -/
inductive SysResult where
  | ok (n : Nat)
  | err (errno : Int)
deriving DecidableEq, Repr

/-- `ReadFuture` from `src/reactor/future.rs` (the reactor handle it carries is
passed to `poll` explicitly). -/
structure ReadFuture where
  file_descriptor : Int
  registered : Bool
deriving DecidableEq, Repr

/-- `ReadFuture::poll`: attempt the `read` syscall; positive counts and 0
resolve `Ok`; on `EAGAIN`/`EWOULDBLOCK` register the waker with the reactor
only when the `registered` flag is not yet set, then return `Pending`; any
other errno resolves `Err`. -/
def ReadFuture.poll (f : ReadFuture) (result : SysResult) (waker : Waker) (r : Reactor) :
    RPoll (Except Int Nat) × ReadFuture × Reactor :=
  match result with
  | .ok n =>
    if n > 0 then (.ready (.ok n), f, r)
    else (.ready (.ok 0), f, r)
  | .err error =>
    if error = EAGAIN ∨ error = EWOULDBLOCK then
      if ¬ f.registered then
        (.pending, { f with registered := true }, r.register_read f.file_descriptor waker)
      else
        (.pending, f, r)
    else
      (.ready (.error error), f, r)

/-- `WriteFuture` from `src/reactor/future.rs`. -/
structure WriteFuture where
  file_descriptor : Int
  registered : Bool
deriving DecidableEq, Repr

/-- `WriteFuture::poll`: attempt the `write` syscall; any `n ≥ 0` resolves
`Ok(n)`; on `EAGAIN`/`EWOULDBLOCK` register the waker with the reactor only
when the `registered` flag is not yet set, then return `Pending`. -/
def WriteFuture.poll (f : WriteFuture) (result : SysResult) (waker : Waker) (r : Reactor) :
    RPoll (Except Int Nat) × WriteFuture × Reactor :=
  match result with
  | .ok n => (.ready (.ok n), f, r)
  | .err error =>
    if error = EAGAIN ∨ error = EWOULDBLOCK then
      if ¬ f.registered then
        (.pending, { f with registered := true }, r.register_write f.file_descriptor waker)
      else
        (.pending, f, r)
    else
      (.ready (.error error), f, r)

/-- A syscall oracle whose echo-server answers are never consulted in the
scenarios of this file (every registry entry involved is `Waiting`). -/
def sysIdle : Sys :=
  { readConn := fun _ => .failed 0
    writeConn := fun _ _ => .error 0
    acceptConn := fun _ => .error 0 }

/-- C4 (code bug): the `registered` flag of an I/O future is never reset, so
after the one would-block poll that registered the waker, the reactor's
harvest of a readiness event consumes the registration (one-shot), and the
next poll that would-blocks again returns `Pending` WITHOUT establishing a
fresh registration: descriptor 3 is left with no registry entry while the
future is pending, so the task can never be woken again. The scenario: poll
once with errno `EAGAIN` (registers waker 7), let the reactor harvest one
read event for fd 3 (fires 7, drops the registration), poll again with errno
`EAGAIN` (waker 8): the second poll leaves the reactor untouched. -/
theorem read_future_second_would_block_leaves_no_registration :
    ((ReadFuture.mk 3 false).poll (.err 35) 7 Reactor.new
      = (.pending, ReadFuture.mk 3 true, Reactor.new.register_read 3 7)) ∧
    (((Reactor.new.register_read 3 7).handle_events sysIdle [⟨3, EVFILT_READ⟩]).wake_ready
      = (Reactor.new, [7])) ∧
    ((ReadFuture.mk 3 true).poll (.err 35) 8 Reactor.new
      = (.pending, ReadFuture.mk 3 true, Reactor.new)) ∧
    (mapLookup 3 Reactor.new.registry = none) := by
  refine ⟨by decide, ?_, by decide, by decide⟩
  have h : mapLookup (usizeToI32 3) (Reactor.new.register_read (usizeToI32 3) 7).registry
      = some (Entry.waiting 7) := mapLookup_insert_self _ _ _
  have h3 : usizeToI32 3 = 3 := by decide
  rw [h3] at h
  rw [handle_events_singleton, show (3 : Nat) = (3 : Nat) from rfl]
  rw [show Reactor.new.register_read 3 7 = Reactor.new.register_read (usizeToI32 3) 7 by rw [h3]]
  rw [handle_one_event_read_waiting sysIdle _ 3 7 (by rw [h3]; exact h)]
  decide

/-- `Features` from `src/runtime/context.rs`. -/
structure Features where
  io_enabled : Bool
  fs_enabled : Bool
deriving DecidableEq, Repr

/-- The three thread-local context slots of `src/runtime/context.rs`
(`CURRENT_QUEUE`, `CURRENT_REACTOR`, `CURRENT_FEATURES`), with the queue and
reactor-handle types abstract. -/
structure Ctx (Q R : Type) where
  current_queue : Option Q
  current_reactor : Option R
  current_features : Option Features
deriving DecidableEq, Repr

/-- `ensure_feature`: checks a feature of the current context and panics
(modelled as `Except.error` carrying the panic message) when it is absent or
disabled. -/
def ensure_feature {Q R : Type} (check : Features → Bool) (name hint : String)
    (ctx : Ctx Q R) : Except String Unit :=
  let enabled := (ctx.current_features.map check).getD false
  if enabled then .ok () else .error (name ++ " support not enabled. Use " ++ hint ++ ".")

/-- `current_reactor_inner`: the current reactor handle, panicking (modelled
as `Except.error`) outside a runtime context. -/
def current_reactor_inner {Q R : Type} (ctx : Ctx Q R) : Except String R :=
  match ctx.current_reactor with
  | some r => .ok r
  | none =>
    .error "No reactor in current context. I/O operations must be called within Runtime::block_on"

/-- `current_reactor_io`: `ensure_feature` on `io_enabled`, then the current
reactor handle. -/
def current_reactor_io {Q R : Type} (ctx : Ctx Q R) : Except String R :=
  match ensure_feature (fun f => f.io_enabled) "I/O" "RuntimeBuilder::enable_io()" ctx with
  | .error message => .error message
  | .ok _ => current_reactor_inner ctx

/-- The `Sleep` future of `src/reactor/sleep.rs` (duration in milliseconds;
the reactor handle it carries is passed to `poll` explicitly). -/
structure Sleep where
  duration : Nat
  registered : Bool
deriving DecidableEq, Repr

/-- `Sleep::new_with_reactor`: duration recorded, `registered` starts false. -/
def Sleep.new_with_reactor (duration : Nat) : Sleep :=
  { duration := duration, registered := false }

/-- `Sleep::new` / the `sleep` function: fetches the current reactor handle
via `current_reactor_io` (which panics, modelled as `Except.error`, when the
I/O feature is disabled or no context is set), then builds the future. -/
def Sleep.new {Q R : Type} (ctx : Ctx Q R) (duration : Nat) : Except String (Sleep × R) :=
  (current_reactor_io ctx).map (fun r => (Sleep.new_with_reactor duration, r))

/-- `Sleep::poll`: zero duration completes immediately; otherwise the first
poll registers a one-shot reactor timer and returns `Pending`, and every later
poll returns `Ready(())`. -/
def Sleep.poll (s : Sleep) (waker : Waker) (r : Reactor) : RPoll Unit × Sleep × Reactor :=
  if s.duration = 0 then
    (.ready (), s, r)
  else if ¬ s.registered then
    (.pending, { s with registered := true }, (r.register_timer s.duration waker).1)
  else
    (.ready (), s, r)

/-- C5 counterexample: constructing `sleep(0)` with the I/O feature disabled
does not succeed: `Sleep::new` calls `current_reactor_io`, whose feature check
panics before the zero-duration short-circuit in `poll` can ever run. -/
theorem sleep_zero_without_io_gate_panics_cex :
    Sleep.new (Q := Unit) (R := Reactor)
        ⟨none, some Reactor.new, some ⟨false, false⟩⟩ 0
      = .error "I/O support not enabled. Use RuntimeBuilder::enable_io()." := by
  rfl

/-- C5 amended: polling a zero-duration sleep resolves `Ready(())` on the
first poll with no reactor interaction at all (the reactor state is returned
untouched and no timer is registered), but constructing the future is gated:
`Sleep::new` panics when the I/O feature is disabled and succeeds, returning
the context's reactor handle, when it is enabled. -/
theorem sleep_zero_ready_no_reactor
    {Q R : Type} (s : Sleep) (waker : Waker) (r : Reactor)
    (h : s.duration = 0) (q : Option Q) (r0 : R) (feats : Features)
    (hio : feats.io_enabled = true) :
    s.poll waker r = (.ready (), s, r) ∧
    Sleep.new (Ctx.mk q (some r0) (some feats)) 0
      = .ok (Sleep.new_with_reactor 0, r0) := by
  constructor
  · simp [Sleep.poll, h]
  · simp [Sleep.new, current_reactor_io, ensure_feature, current_reactor_inner, hio,
      Except.map]

/-- Witness for `sleep_zero_ready_no_reactor`. -/
theorem sleep_zero_ready_no_reactor_witness :
    (Sleep.new_with_reactor 0).poll 7 Reactor.new
      = (.ready (), Sleep.new_with_reactor 0, Reactor.new) ∧
    Sleep.new (Ctx.mk (none : Option Unit) (some Reactor.new) (some ⟨true, false⟩)) 0
      = .ok (Sleep.new_with_reactor 0, Reactor.new) :=
  sleep_zero_ready_no_reactor (Sleep.new_with_reactor 0) 7 Reactor.new rfl none
    Reactor.new ⟨true, false⟩ rfl

/-- C10: for a nonzero duration, the first poll registers the timer and
returns `Pending`; after that, every poll returns `Ready(())` for EVERY
reactor state and waker — in particular for the very reactor in which the
timer waker is still registered (the timer has not fired): `Sleep::poll`
never consults the reactor to check its timer, so any poll after the first
completes the sleep. -/
theorem sleep_second_poll_ready_unconditionally
    (d : Nat) (hd : d ≠ 0) (r r2 : Reactor) (waker w2 : Waker) :
    (Sleep.new_with_reactor d).poll waker r
      = (.pending, Sleep.mk d true, (r.register_timer d waker).1) ∧
    (Sleep.mk d true).poll w2 r2 = (.ready (), Sleep.mk d true, r2) ∧
    mapLookup r.next_timer_id ((r.register_timer d waker).1).timers = some waker := by
  refine ⟨?_, ?_, ?_⟩
  · simp [Sleep.poll, Sleep.new_with_reactor, hd]
  · simp [Sleep.poll, hd]
  · simp [Reactor.register_timer, mapLookup_insert_self]

/-- Witness for `sleep_second_poll_ready_unconditionally`: the second poll is
run on exactly the reactor that still holds the unfired timer. -/
theorem sleep_second_poll_ready_unconditionally_witness :
    ((Sleep.new_with_reactor 5).poll 7 Reactor.new
      = (.pending, Sleep.mk 5 true, (Reactor.new.register_timer 5 7).1)) ∧
    ((Sleep.mk 5 true).poll 7 (Reactor.new.register_timer 5 7).1
      = (.ready (), Sleep.mk 5 true, (Reactor.new.register_timer 5 7).1)) ∧
    mapLookup Reactor.new.next_timer_id ((Reactor.new.register_timer 5 7).1).timers
      = some 7 :=
  sleep_second_poll_ready_unconditionally 5 (by decide) Reactor.new
    (Reactor.new.register_timer 5 7).1 7 7

/-- `TimeError` from `src/time/mod.rs`. -/
inductive TimeError where
  | timeOut
deriving DecidableEq, Repr

/-- The `Timeout` future of `src/time/timeout.rs` (instants are model time
points; `deadline = now + duration` at construction). -/
structure Timeout where
  deadline : Nat
  duration : Nat
  registered : Bool
deriving DecidableEq, Repr

/-- `Timeout::new` (the reactor handle comes from `current_reactor_io`, as for
`Sleep`; it is passed to `poll` explicitly here). -/
def Timeout.new (now duration : Nat) : Timeout :=
  { deadline := now + duration, duration := duration, registered := false }

/-- `Timeout::poll`: FIRST compare the clock against the deadline and resolve
`Err(TimeOut)` if reached; only otherwise poll the inner future (its result
for this poll is the `inner` argument), resolving `Ok(v)` on readiness;
otherwise register a one-shot timer once and return `Pending`. The final
`Bool` records whether the inner future's `poll` was reached. -/
def Timeout.poll {α : Type} (t : Timeout) (now : Nat) (inner : RPoll α) (waker : Waker)
    (r : Reactor) : RPoll (Except TimeError α) × Timeout × Reactor × Bool :=
  if t.deadline ≤ now then
    (.ready (.error .timeOut), t, r, false)
  else
    match inner with
    | .ready v => (.ready (.ok v), t, r, true)
    | .pending =>
      if ¬ t.registered then
        (.pending, { t with registered := true }, (r.register_timer t.duration waker).1, true)
      else
        (.pending, t, r, true)

/-- C1 counterexample: on a poll where the inner future is ready AND the
deadline has been reached (deadline 5, clock 5, inner ready with 42), the
timeout resolves `Err(TimeOut)`, not `Ok(42)`, and the inner future is never
polled: the deadline is checked BEFORE the inner poll, so the timeout masks
an inner result produced in the same poll. -/
theorem timeout_masks_inner_ready_cex :
    ((Timeout.mk 5 5 false).poll (α := Nat) 5 (.ready 42) 0 Reactor.new
      = (.ready (.error .timeOut), Timeout.mk 5 5 false, Reactor.new, false)) ∧
    ((Timeout.mk 5 5 false).poll (α := Nat) 5 (.ready 42) 0 Reactor.new
      ≠ (.ready (.ok 42), Timeout.mk 5 5 false, Reactor.new, true)) := by
  constructor
  · rfl
  · intro h
    exact absurd (congrArg (fun x => x.1) h) (by decide)

/-- C1 amended: `Timeout::poll` checks the deadline BEFORE polling the inner
future: whenever the clock has reached the deadline the result is
`Err(TimeOut)` and the inner future is not polled at all (so a timeout CAN
mask an inner value that would have been produced in the same poll); the
inner value wins only on polls where the deadline has not yet been reached. -/
theorem timeout_deadline_checked_before_inner
    {α : Type} (t : Timeout) (now : Nat) (inner : RPoll α) (waker : Waker) (r : Reactor) :
    (t.deadline ≤ now →
      t.poll now inner waker r = (.ready (.error .timeOut), t, r, false)) ∧
    (now < t.deadline → ∀ v, inner = .ready v →
      t.poll now inner waker r = (.ready (.ok v), t, r, true)) := by
  constructor
  · intro h
    simp [Timeout.poll, h]
  · intro h v hv
    subst hv
    simp [Timeout.poll, Nat.not_le_of_lt h, Nat.not_le.mpr h]

/-- Witness for `timeout_deadline_checked_before_inner`, exercising both
hypotheses: clock at the deadline (inner masked) and clock before the
deadline (inner value wins). -/
theorem timeout_deadline_checked_before_inner_witness :
    ((Timeout.mk 5 5 false).poll (α := Nat) 7 (.ready 42) 0 Reactor.new
      = (.ready (.error .timeOut), Timeout.mk 5 5 false, Reactor.new, false)) ∧
    ((Timeout.mk 9 5 false).poll (α := Nat) 7 (.ready 42) 0 Reactor.new
      = (.ready (.ok 42), Timeout.mk 9 5 false, Reactor.new, true)) :=
  ⟨(timeout_deadline_checked_before_inner (Timeout.mk 5 5 false) 7 (.ready 42) 0
      Reactor.new).1 (by decide),
   (timeout_deadline_checked_before_inner (Timeout.mk 9 5 false) 7 (.ready 42) 0
      Reactor.new).2 (by decide) 42 rfl⟩

/-- Error kinds surfaced by `TcpStream::write_all`: `writeZero` is
`io::ErrorKind::WriteZero` ("write returned zero bytes"), `os e` an OS error
propagated by the `?` on the inner write future. -/
inductive WriteAllError where
  | writeZero
  | os (errno : Int)
deriving DecidableEq, Repr

/-- The `write_all` loop of `src/net/tcp_stream.rs`, over the resolved
outcomes of the successive `self.write(buffer).await` calls (`writes`), a
remaining buffer length and a running total of bytes written. `none` means
the loop did not finish within the supplied outcomes (the future is still
pending), or an outcome claimed more bytes than remain — the `write` syscall
never reports more than requested, and the source would panic slicing
`&buffer[n..]` there. -/
def write_all_go (writes : List (Except Int Nat)) (remaining written : Nat) :
    Option (Except WriteAllError Unit × Nat) :=
  match remaining with
  | 0 => some (.ok (), written)
  | rem + 1 =>
    match writes with
    | [] => none
    | outcome :: rest =>
      match outcome with
      | .error e => some (.error (.os e), written)
      | .ok 0 => some (.error .writeZero, written)
      | .ok (n + 1) =>
        if n + 1 ≤ rem + 1 then write_all_go rest (rem + 1 - (n + 1)) (written + (n + 1))
        else none

/-- `TcpStream::write_all` on a buffer of the given length. -/
def write_all (buffer : Nat) (writes : List (Except Int Nat)) :
    Option (Except WriteAllError Unit × Nat) :=
  write_all_go writes buffer 0

theorem write_all_go_spec (writes : List (Except Int Nat)) :
    ∀ remaining written res total,
      write_all_go writes remaining written = some (res, total) →
      written ≤ total ∧ total ≤ written + remaining ∧
        (res = .ok () → total = written + remaining) := by
  induction writes with
  | nil =>
    intro remaining written res total h
    cases remaining with
    | zero =>
      simp [write_all_go] at h
      obtain ⟨h1, h2⟩ := h
      subst h1
      subst h2
      exact ⟨le_refl _, by omega, fun _ => by omega⟩
    | succ rem => simp [write_all_go] at h
  | cons outcome rest ih =>
    intro remaining written res total h
    cases remaining with
    | zero =>
      simp [write_all_go] at h
      obtain ⟨h1, h2⟩ := h
      subst h1
      subst h2
      exact ⟨le_refl _, by omega, fun _ => by omega⟩
    | succ rem =>
      cases outcome with
      | error e =>
        simp [write_all_go] at h
        obtain ⟨h1, h2⟩ := h
        subst h2
        exact ⟨le_refl _, by omega, fun hres => by rw [← h1] at hres; cases hres⟩
      | ok n =>
        cases n with
        | zero =>
          simp [write_all_go] at h
          obtain ⟨h1, h2⟩ := h
          subst h2
          exact ⟨le_refl _, by omega, fun hres => by rw [← h1] at hres; cases hres⟩
        | succ m =>
          by_cases hle : m + 1 ≤ rem + 1
          · rw [write_all_go, if_pos hle] at h
            obtain ⟨ha, hb, hc⟩ := ih (rem + 1 - (m + 1)) (written + (m + 1)) res total h
            exact ⟨by omega, by omega, fun hres => by have := hc hres; omega⟩
          · rw [write_all_go, if_neg hle] at h
            cases h

theorem write_all_go_zero_mid (chunks : List Nat) :
    ∀ (rest : List (Except Int Nat)) (rem written : Nat),
      (∀ c ∈ chunks, 0 < c) → chunks.sum < rem →
      write_all_go (chunks.map Except.ok ++ .ok 0 :: rest) rem written
        = some (.error .writeZero, written + chunks.sum) := by
  induction chunks with
  | nil =>
    intro rest rem written _ hsum
    cases rem with
    | zero => omega
    | succ r => simp [write_all_go]
  | cons c cs ih =>
    intro rest rem written hpos hsum
    have hc : 0 < c := hpos c (by simp)
    simp only [List.sum_cons] at hsum
    cases rem with
    | zero => omega
    | succ r =>
      cases c with
      | zero => omega
      | succ m =>
        have hle : m + 1 ≤ r + 1 := by omega
        simp only [List.map_cons, List.cons_append, write_all_go, if_pos hle,
          List.append_eq]
        rw [ih rest (r + 1 - (m + 1)) (written + (m + 1))
          (fun x hx => hpos x (by simp [hx])) (by omega)]
        have htot : written + (m + 1) + cs.sum = written + ((m + 1) :: cs).sum := by
          simp only [List.sum_cons]
          omega
        rw [htot]

/-- C6: `write_all(buf)` resolves `Ok(())` only having written exactly `|buf|`
bytes in total; any resolution has written at most `|buf|` bytes (an error
leaves a written prefix, never over-reports); an empty buffer resolves
`Ok(())` without invoking write at all; and if ANY underlying write returns 0
while the remaining buffer is non-empty — after any number of successful
chunk writes that have not yet drained the buffer — the loop resolves the
`write-zero` I/O error at that iteration, with exactly that prefix written. -/
theorem write_all_exact_or_error :
    (∀ buffer writes written,
      write_all buffer writes = some (.ok (), written) → written = buffer) ∧
    (∀ buffer writes res written,
      write_all buffer writes = some (res, written) → written ≤ buffer) ∧
    (∀ writes, write_all 0 writes = some (.ok (), 0)) ∧
    (∀ (chunks : List Nat) (rest : List (Except Int Nat)) (buffer : Nat),
      (∀ c ∈ chunks, 0 < c) → chunks.sum < buffer →
      write_all buffer (chunks.map Except.ok ++ .ok 0 :: rest)
        = some (.error .writeZero, chunks.sum)) := by
  refine ⟨?_, ?_, ?_, ?_⟩
  · intro buffer writes written h
    have := (write_all_go_spec writes buffer 0 _ _ h).2.2 rfl
    omega
  · intro buffer writes res written h
    have := (write_all_go_spec writes buffer 0 res written h).2.1
    omega
  · intro writes
    cases writes <;> rfl
  · intro chunks rest buffer hpos hsum
    have h := write_all_go_zero_mid chunks rest buffer 0 hpos hsum
    rw [write_all, h, Nat.zero_add]

/-- Witness for `write_all_exact_or_error`: a buffer of 5 bytes written in a
3-byte and then a 2-byte chunk, a failing write after one chunk, and a
zero-byte write in the middle of the loop (after a successful 3-byte chunk,
with 2 bytes still remaining). -/
theorem write_all_exact_or_error_witness :
    (5 : Nat) = 5 ∧ (2 : Nat) ≤ 5 ∧
    write_all 5 ([3].map Except.ok ++ .ok 0 :: [])
      = some (.error .writeZero, [3].sum) :=
  ⟨write_all_exact_or_error.1 5 [.ok 3, .ok 2] 5 (by rfl),
   write_all_exact_or_error.2.1 5 [.ok 2, .error 9] (.error (.os 9)) 2 (by rfl),
   write_all_exact_or_error.2.2.2 [3] [] 5 (by decide) (by decide)⟩

/-- The state of a `Task<T>` from `src/task.rs`. The wrapped computation is
modelled by a poll script: it answers `Pending` to its first `n` polls (the
stored pair's first component counts the polls still to answer `Pending`) and
then `Ready value`; `future = none` models the taken slot after completion. -/
structure TaskState (α : Type) where
  future : Option (Nat × α)
  result : Option α
  completed : Bool
  waiters : List Waker
deriving DecidableEq, Repr

/-- `Task::new`: wraps the computation; nothing resolved, no waiters. -/
def TaskState.new {α : Type} (pendings : Nat) (value : α) : TaskState α :=
  { future := some (pendings, value), result := none, completed := true = false
  , waiters := [] }

/-- `Task::poll`: take the future slot if occupied and poll it; on `Pending`
put it back; on `Ready(val)` store the result, set `completed` and drain the
join-waiters, waking each (returned as the second component); if the slot is
empty the call is a no-op. -/
def TaskState.poll {α : Type} (t : TaskState α) : TaskState α × List Waker :=
  match t.future with
  | none => (t, [])
  | some (p + 1, v) => ({ t with future := some (p, v) }, [])
  | some (0, v) =>
    ({ t with future := none, result := some v, completed := true, waiters := [] },
      t.waiters)

/-- `JoinHandle::poll`: if the task is completed, take the stored result
(panicking — `none` here — when it is already gone) and resolve; otherwise
push the waker onto the task's waiter list and stay pending. -/
def joinHandle_poll {α : Type} (t : TaskState α) (waker : Waker) :
    Option (RPoll α × TaskState α) :=
  if t.completed then
    match t.result with
    | some v => some (.ready v, { t with result := none })
    | none => none
  else
    some (.pending, { t with waiters := t.waiters ++ [waker] })

/-- Iterated executor-side polls of a task. -/
def pollN {α : Type} (t : TaskState α) : Nat → TaskState α
  | 0 => t
  | k + 1 => (pollN t k).poll.1

theorem pollN_le {α : Type} (p : Nat) (v : α) :
    ∀ k, k ≤ p →
      pollN (TaskState.new p v) k
        = { future := some (p - k, v), result := none, completed := false
          , waiters := [] } := by
  intro k
  induction k with
  | zero => intro _; simp [pollN, TaskState.new]
  | succ k ih =>
    intro hk
    have hk1 : k ≤ p := by omega
    rw [pollN, ih hk1]
    have hp : p - k = (p - (k + 1)) + 1 := by omega
    rw [hp]
    rfl

theorem pollN_completed {α : Type} (p : Nat) (v : α) :
    ∀ k, p + 1 ≤ k →
      pollN (TaskState.new p v) k
        = { future := none, result := some v, completed := true, waiters := [] } := by
  intro k
  induction k with
  | zero => intro hk; omega
  | succ k ih =>
    intro hk
    by_cases hkp : p + 1 ≤ k
    · rw [pollN, ih hkp]
      rfl
    · have hkp2 : p = k := by omega
      subst hkp2
      rw [pollN, pollN_le p v p (le_refl _)]
      simp [TaskState.poll]

/-- C7: a spawned task whose computation produces `v` makes exactly one
transition from not-completed to completed (completed after `k` executor
polls iff the computation resolved within them); at that transition `v` is
stored in the result slot and stays there, executor re-polls after completion
being no-ops; awaiting the `JoinHandle` resolves exactly once with that same
`v`, consuming the slot — before completion it parks the waker, and once the
result is consumed a further join poll finds the slot empty (the source
`expect` panics rather than resolving twice). -/
theorem task_completes_once_join_resolves_once
    {α : Type} (p : Nat) (v : α) (k : Nat) (waker : Waker) :
    ((pollN (TaskState.new p v) k).completed = true ↔ p + 1 ≤ k) ∧
    (p + 1 ≤ k →
      pollN (TaskState.new p v) k
        = { future := none, result := some v, completed := true, waiters := [] }) ∧
    (p + 1 ≤ k →
      joinHandle_poll (pollN (TaskState.new p v) k) waker
        = some (.ready v,
            { future := none, result := none, completed := true, waiters := [] })) ∧
    (k ≤ p →
      joinHandle_poll (pollN (TaskState.new p v) k) waker
        = some (.pending,
            { future := some (p - k, v), result := none, completed := false
            , waiters := [waker] })) ∧
    (joinHandle_poll
        ({ future := none, result := none, completed := true, waiters := [] } :
          TaskState α) waker = none) ∧
    (({ future := none, result := some v, completed := true, waiters := [] } :
        TaskState α).poll
      = ({ future := none, result := some v, completed := true, waiters := [] }, [])) := by
  refine ⟨?_, pollN_completed p v k, ?_, ?_, by simp [joinHandle_poll], by simp [TaskState.poll]⟩
  · constructor
    · intro hc
      by_contra hk
      have hk2 : k ≤ p := by omega
      rw [pollN_le p v k hk2] at hc
      simp at hc
    · intro hk
      rw [pollN_completed p v k hk]
  · intro hk
    rw [pollN_completed p v k hk]
    simp [joinHandle_poll]
  · intro hk
    rw [pollN_le p v k hk]
    simp [joinHandle_poll]

/-- Witness for `task_completes_once_join_resolves_once`: a task that is
pending for one poll and then produces 42, joined after completion and while
still running. -/
theorem task_completes_once_join_resolves_once_witness :
    (pollN (TaskState.new 1 (42 : Nat)) 2
      = { future := none, result := some 42, completed := true, waiters := [] }) ∧
    (joinHandle_poll (pollN (TaskState.new 1 (42 : Nat)) 2) 0
      = some (.ready 42,
          { future := none, result := none, completed := true, waiters := [] })) ∧
    (joinHandle_poll (pollN (TaskState.new 1 (42 : Nat)) 1) 0
      = some (.pending,
          { future := some (0, 42), result := none, completed := false
          , waiters := [0] })) :=
  ⟨(task_completes_once_join_resolves_once 1 42 2 0).2.1 (by omega),
   (task_completes_once_join_resolves_once 1 42 2 0).2.2.1 (by omega),
   (task_completes_once_join_resolves_once 1 42 1 0).2.2.2.1 (by omega)⟩

/-- The target of a pending waker held by the reactor: the root future's
flag-setting waker (`block_on`'s raw waker writing `is_notified`) or a task
waker, which re-queues its task. -/
inductive WakeTarget where
  | root
  | task (id : Nat)
deriving DecidableEq, Repr

/-- The loop-visible state of `Runtime::block_on`: the stack-local
`is_notified` flag, the ready queue (task ids) and the reactor's
pending-wakers buffer. -/
structure LoopState where
  is_notified : Bool
  queue : List Nat
  wakers : List WakeTarget
deriving DecidableEq, Repr

/-- Effect of invoking one pending waker (inside `wake_ready`): the root
waker writes the notification flag, a task waker pushes its task onto the
ready queue. -/
def applyWake (st : LoopState) (w : WakeTarget) : LoopState :=
  match w with
  | .root => { st with is_notified := true }
  | .task id => { st with queue := st.queue ++ [id] }

/-- `Reactor::wake_ready` as seen by the loop state: drain the buffer,
invoking each pending waker in order. -/
def wakeReadyStep (st : LoopState) : LoopState :=
  st.wakers.foldl applyWake { st with wakers := [] }

/-- Modelled from the spec: the `Executor` used by `Runtime::block_on` is
declared in `src/runtime/mod.rs` (`mod executor`) but its source file is
absent from the tree; per the spec the executor "drains the task queue and
polls tasks" until the queue is empty (tasks appended during the drain
included), so the ready queue is empty when `run` returns. Reactor
registrations made by the polled tasks surface later as harvested wakers. -/
def executorRunStep (st : LoopState) : LoopState :=
  { st with queue := [] }

/-- `Reactor::poll_events`/`handle_events` as seen by the loop state: the
harvest moves the wakers of matching registrations into the pending-wakers
buffer (the registry-level behaviour is proved on the `Reactor` model in the
development above); the wakers moved by this harvest are the `harvested`
input. -/
def harvestStep (st : LoopState) (harvested : List WakeTarget) : LoopState :=
  { st with wakers := st.wakers ++ harvested }

/-- The observable actions of one `block_on` iteration, in program order. -/
inductive LoopAct where
  | pollRoot
  | graceDrain
  | executorRun
  | pollEvents
  | wakeReady
  | waitForEvent
  | handleEvents
deriving DecidableEq, Repr

/-- Kernel and root-future inputs to one `block_on` iteration: whether the
root's poll returns `Ready`, and the wakers the non-blocking harvest (and the
blocking one, if reached) would move to the buffer. -/
structure IterInput where
  rootReady : Bool
  harvestNB : List WakeTarget
  harvestBlock : List WakeTarget
deriving DecidableEq, Repr

/-- One iteration of the `Runtime::block_on` loop (`src/runtime/core.rs`):
poll the root first; on `Ready` run the bounded grace drain and exit the loop
(`none`); otherwise run the executor over the ready queue, do the
non-blocking event poll, wake the pending wakers, and `continue` when the
root was notified (clearing the flag) or when the ready queue is non-empty;
only otherwise block in `wait_for_event`, then `handle_events` and
`wake_ready` again. Returns the action trace and the next state. -/
def blockOnIter (st : LoopState) (inp : IterInput) : List LoopAct × Option LoopState :=
  if inp.rootReady then
    ([.pollRoot, .graceDrain], none)
  else
    let st1 := executorRunStep st
    let st2 := harvestStep st1 inp.harvestNB
    let st3 := wakeReadyStep st2
    if st3.is_notified then
      ([.pollRoot, .executorRun, .pollEvents, .wakeReady],
        some { st3 with is_notified := false })
    else if ¬ st3.queue.isEmpty then
      ([.pollRoot, .executorRun, .pollEvents, .wakeReady], some st3)
    else
      ([.pollRoot, .executorRun, .pollEvents, .wakeReady, .waitForEvent, .handleEvents,
          .wakeReady],
        some (wakeReadyStep (harvestStep st3 inp.harvestBlock)))

/-- C8: in every iteration of `block_on` the root future is polled first,
before the ready-queue drain, and the iteration reaches the blocking
`wait_for_event` only when, after the non-blocking event poll and wake, the
root's notification flag is clear AND the ready queue is empty — whenever
either signals pending progress, the iteration continues instead of
blocking. -/
theorem block_on_polls_root_first_and_blocks_only_idle
    (st : LoopState) (inp : IterInput) :
    ((blockOnIter st inp).1.head? = some .pollRoot) ∧
    (.waitForEvent ∈ (blockOnIter st inp).1 →
      (wakeReadyStep (harvestStep (executorRunStep st) inp.harvestNB)).is_notified = false ∧
      (wakeReadyStep (harvestStep (executorRunStep st) inp.harvestNB)).queue = []) ∧
    ((wakeReadyStep (harvestStep (executorRunStep st) inp.harvestNB)).is_notified = true →
      .waitForEvent ∉ (blockOnIter st inp).1) ∧
    ((wakeReadyStep (harvestStep (executorRunStep st) inp.harvestNB)).queue ≠ [] →
      .waitForEvent ∉ (blockOnIter st inp).1) := by
  by_cases h1 : inp.rootReady
  · refine ⟨?_, ?_, ?_, ?_⟩ <;> simp [blockOnIter, h1]
  · by_cases h2 : (wakeReadyStep (harvestStep (executorRunStep st) inp.harvestNB)).is_notified
    · refine ⟨?_, ?_, ?_, ?_⟩ <;> simp [blockOnIter, h1, h2]
    · by_cases h3 : (wakeReadyStep (harvestStep (executorRunStep st) inp.harvestNB)).queue = []
      · refine ⟨?_, ?_, ?_, ?_⟩ <;>
          simp [blockOnIter, h1, h2, h3, List.isEmpty_iff]
      · refine ⟨?_, ?_, ?_, ?_⟩ <;>
          simp [blockOnIter, h1, h2, h3, List.isEmpty_iff]

/-- Witness for `block_on_polls_root_first_and_blocks_only_idle`: an idle
iteration (nothing notified, queue empty, nothing harvested) does block, and
the theorem recovers that both progress signals were indeed clear. -/
theorem block_on_polls_root_first_and_blocks_only_idle_witness :
    (wakeReadyStep (harvestStep (executorRunStep ⟨false, [], []⟩) [])).is_notified = false ∧
    (wakeReadyStep (harvestStep (executorRunStep ⟨false, [], []⟩) [])).queue = [] :=
  (block_on_polls_root_first_and_blocks_only_idle ⟨false, [], []⟩ ⟨false, [], []⟩).2.1
    (by decide)

/-- `enter_context` from `src/runtime/context.rs`: record the previous
contents of the three thread-local slots (`replace` returns them), install
the supplied queue, reactor and features, run the closure — modelled as a
function receiving the slots it observes and returning the slots it leaves
behind together with its value — and finally write each saved previous value
back into its slot. -/
def enter_context {Q R β : Type} (queue : Q) (reactor : R) (features : Features)
    (function : Ctx Q R → Ctx Q R × β) (ctx : Ctx Q R) : Ctx Q R × β :=
  let previous_queue := ctx.current_queue
  let previous_reactor := ctx.current_reactor
  let previous_features := ctx.current_features
  let entered : Ctx Q R :=
    { current_queue := some queue, current_reactor := some reactor
    , current_features := some features }
  let res := function entered
  ({ res.1 with
      current_queue := previous_queue
      current_reactor := previous_reactor
      current_features := previous_features }, res.2)

/-- C9: `enter_context` is a round-trip on the thread-local slots: for every
prior state of the queue, reactor and feature slots and every closure that
completes normally (total function here), after `enter_context` returns all
three slots hold exactly their prior values — whatever the closure left in
them — and the closure itself observes slots holding exactly the supplied
queue, reactor and features. -/
theorem enter_context_round_trip {Q R β : Type} (queue : Q) (reactor : R)
    (features : Features) (function : Ctx Q R → Ctx Q R × β) (ctx : Ctx Q R) :
    (enter_context queue reactor features function ctx).1 = ctx ∧
    (enter_context queue reactor features function ctx).2
      = (function
          { current_queue := some queue, current_reactor := some reactor
          , current_features := some features }).2 :=
  ⟨rfl, rfl⟩
